import Mathlib

/-!
# Verification of the epilepsy_tools ingestion and annotation pipeline

Shallow embedding of the algorithmic core of the `epilepsy_tools` repository:
the timestamp synthesizers of the two device loaders
(`hexoskin/data.py`, `cometa/data.py`), the two signal loaders, and the
annotation / patient reconciliation functions of `epidatavault`
(`extract_seizures.py`, `extract_patients.py`).

Conventions of the embedding:
* Instants are integers counting microseconds (the resolution of Python
  `datetime` / `timedelta`); `pandas` nanosecond bounds are expressed on the
  microsecond value scaled by 1000.
* Sample values are rationals; the NaN missing sentinel of a table cell is
  `Option.none`.
* Python code that can raise is modelled in `Except String`, the error string
  naming the exception class.
-/

namespace EpilepsyTools

/-! ## Basic utilities -/

/-- Round a rational to the nearest integer, ties to even: the rounding used
by Python when `datetime.timedelta(seconds=x)` converts fractional seconds to
whole microseconds. -/
def roundHalfEven (q : ℚ) : ℤ :=
  let f := ⌊q⌋
  if q - f < 1/2 then f
  else if 1/2 < q - f then f + 1
  else if 2 ∣ f then f else f + 1

/-- First occurrences of a list, in order: the semantics of
`pandas.Series.unique` (and of iterating a Python `dict` keyed by first
insertion). -/
def uniqueFirstAux {α : Type} [DecidableEq α] : List α → List α → List α
  | [], _ => []
  | a :: l, seen =>
    if a ∈ seen then uniqueFirstAux l seen else a :: uniqueFirstAux l (a :: seen)

def uniqueFirst {α : Type} [DecidableEq α] (l : List α) : List α :=
  uniqueFirstAux l []

/-! ## Calendar arithmetic

Days since the Unix epoch of a proleptic Gregorian date (the standard
civil-from-days algorithm).  It is only ever applied to years `≥ 1`, where
every integer-division convention agrees. -/

def daysFromCivil (y : ℤ) (m d : ℕ) : ℤ :=
  let y2 : ℤ := if (m : ℤ) ≤ 2 then y - 1 else y
  let era : ℤ := (if 0 ≤ y2 then y2 else y2 - 399) / 400
  let yoe : ℤ := y2 - era * 400
  let mp : ℤ := ((m : ℤ) + 9) % 12
  let doy : ℤ := (153 * mp + 2) / 5 + (d : ℤ) - 1
  let doe : ℤ := yoe * 365 + yoe / 4 - yoe / 100 + doy
  era * 146097 + doe - 719468

structure Date where
  year : ℤ
  month : ℕ
  day : ℕ
deriving DecidableEq, Repr

structure TimeOfDay where
  hour : ℕ
  minute : ℕ
  second : ℕ
  microsecond : ℕ
deriving DecidableEq, Repr

/-- A combined instant, as produced by
`pd.Timestamp(year=..., month=..., day=..., hour=..., ...)`. -/
structure Timestamp where
  date : Date
  time : TimeOfDay
deriving DecidableEq, Repr

def usPerDay : ℤ := 86400000000

/-- Microseconds since the Unix epoch of a date + time-of-day. -/
def epochUs (d : Date) (t : TimeOfDay) : ℤ :=
  daysFromCivil d.year d.month d.day * usPerDay
    + (t.hour : ℤ) * 3600000000 + (t.minute : ℤ) * 60000000
    + (t.second : ℤ) * 1000000 + (t.microsecond : ℤ)

/-- `pandas.Timestamp` stores nanoseconds in a signed 64-bit word;
`pd.Timestamp(...)` raises `OutOfBoundsDatetime` outside this range. -/
def inTimestampBounds (d : Date) (t : TimeOfDay) : Bool :=
  -9223372036854775807 ≤ epochUs d t * 1000 && epochUs d t * 1000 ≤ 9223372036854775807

def isLeapYear (y : ℤ) : Bool := (y % 4 == 0 && y % 100 != 0) || y % 400 == 0

def daysInMonth (y : ℤ) (m : ℕ) : ℕ :=
  if m = 2 then (if isLeapYear y then 29 else 28)
  else if m = 4 || m = 6 || m = 9 || m = 11 then 30
  else 31

/-! ## String parsing helpers

String operations are implemented over the character list of the string so
that the kernel can evaluate them on concrete inputs. -/

def allDigits (cs : List Char) : Bool := cs.all Char.isDigit

def digitsToNat (cs : List Char) : ℕ :=
  cs.foldl (fun a c => a * 10 + (c.toNat - 48)) 0

/-- Python `str.lower()` (ASCII is all the data uses). -/
def lowerStr (s : String) : String := (s.data.map Char.toLower).asString

/-- Python `s[1:]`. -/
def strTail (s : String) : String := (s.data.drop 1).asString

/-- Split a character list at every character satisfying `p` (the separator
characters are dropped; empty fragments are kept, as in `str.split(sep)`). -/
def splitOnP (p : Char → Bool) : List Char → List (List Char)
  | [] => [[]]
  | c :: cs =>
    match splitOnP p cs with
    | [] => [[]]
    | g :: gs => if p c then [] :: g :: gs else (c :: g) :: gs

/-- `pd.to_datetime(s, errors="coerce")` on a date cell, restricted to the
`YYYY-MM-DD` format the annotation sheets use (the documented format of the
`date` argument of `create_timestamp`); an unparseable or out-of-bounds
string coerces to NaT, i.e. `none`. -/
def parseDateIso (s : String) : Option Date :=
  match splitOnP (· = '-') s.data with
  | [yc, mc, dc] =>
    if allDigits yc && allDigits mc && allDigits dc
        && yc.length = 4 && 1 ≤ mc.length && mc.length ≤ 2
        && 1 ≤ dc.length && dc.length ≤ 2 then
      let y : ℤ := (digitsToNat yc : ℤ)
      let m := digitsToNat mc
      let d := digitsToNat dc
      if 1 ≤ m && m ≤ 12 && 1 ≤ d && d ≤ daysInMonth y m
          && inTimestampBounds ⟨y, m, d⟩ ⟨0, 0, 0, 0⟩ then
        some ⟨y, m, d⟩
      else none
    else none
  | _ => none

/-- `pd.to_datetime(s, format="%H:%M:%S", errors="coerce")`: three
colon-separated numeric fields of one or two digits, in range (leap seconds
are rejected by pandas and are not modelled). -/
def parseTimeHMS (s : String) : Option TimeOfDay :=
  match splitOnP (· = ':') s.data with
  | [hc, mc, sc] =>
    if allDigits hc && allDigits mc && allDigits sc
        && 1 ≤ hc.length && hc.length ≤ 2 && 1 ≤ mc.length && mc.length ≤ 2
        && 1 ≤ sc.length && sc.length ≤ 2 then
      let h := digitsToNat hc
      let m := digitsToNat mc
      let s2 := digitsToNat sc
      if h ≤ 23 && m ≤ 59 && s2 ≤ 59 then some ⟨h, m, s2, 0⟩ else none
    else none
  | _ => none

/-- The integer time-code branch of `create_timestamp`: the value is
zero-padded with `f"{time:06d}"` and parsed with format `%H%M%S`.  A negative
value prints a minus sign and fails the parse; a value of seven or more
digits leaves unconverted trailing data and fails; both coerce to NaT. -/
def parseTimeHHMMSS (n : ℤ) : Option TimeOfDay :=
  if 0 ≤ n && n < 1000000 then
    let h := (n / 10000).toNat
    let m := ((n / 100) % 100).toNat
    let s := (n % 100).toNat
    if h ≤ 23 && m ≤ 59 && s ≤ 59 then some ⟨h, m, s, 0⟩ else none
  else none

/-! ## Spreadsheet cell values

The runtime representations `create_timestamp` dispatches on.  `other`
stands for any non-missing value of a type no branch tests for, e.g. a
non-NaN `float`. -/

inductive DateCell where
  | pynone
  | nan
  | str (s : String)
  | ts (d : Date)
  | other
deriving DecidableEq, Repr

inductive TimeCell where
  | pynone
  | nan
  | str (s : String)
  | int (n : ℤ)
  | timeval (t : TimeOfDay)
  | timedelta (us : ℤ)
  | other
deriving DecidableEq, Repr

/-- `pd.isna` on a date cell (`None` and NaN/NaT are missing). -/
def DateCell.isna : DateCell → Bool
  | .pynone => true
  | .nan => true
  | _ => false

/-- `pd.isna` on a time cell. -/
def TimeCell.isna : TimeCell → Bool
  | .pynone => true
  | .nan => true
  | _ => false

/-- Outcome of one of the two `isinstance` dispatch chains inside
`create_timestamp`: either the local variable was assigned, or the chain hit
an early `return None`, or no branch matched and the variable was never
assigned. -/
inductive DispatchResult (α : Type) where
  | assigned (a : α)
  | earlyNone
  | unassigned
deriving DecidableEq

/-- The date dispatch of `create_timestamp` (source lines 35-41): a string is
parsed with coercion (NaT returns `None` from the whole function); a
timestamp-like value is used directly (only its year/month/day are read);
anything else leaves `date_ts` unassigned. -/
def dispatchDate : DateCell → DispatchResult Date
  | .str s =>
    match parseDateIso s with
    | none => .earlyNone
    | some d => .assigned d
  | .ts d => .assigned d
  | _ => .unassigned

/-- Lower bound of `datetime.datetime`, in microseconds since the epoch:
year 1, month 1, day 1. -/
def datetimeMinUs : ℤ := daysFromCivil 1 1 1 * usPerDay

/-- Upper bound of `datetime.datetime`: 9999-12-31 23:59:59.999999. -/
def datetimeMaxUs : ℤ := daysFromCivil 9999 12 31 * usPerDay + 86399999999

/-- Decompose a microsecond count `0 ≤ u < usPerDay` into a time of day. -/
def usToTimeOfDay (u : ℤ) : TimeOfDay :=
  ⟨(u / 3600000000).toNat, ((u / 60000000) % 60).toNat,
   ((u / 1000000) % 60).toNat, (u % 1000000).toNat⟩

/-- The time dispatch of `create_timestamp` (source lines 43-65).  The
timedelta branch evaluates `(datetime.datetime.min + time).time()`, which
raises `OverflowError` when the sum leaves the `datetime` range (in
particular for any negative timedelta). -/
def dispatchTime : TimeCell → Except String (DispatchResult TimeOfDay)
  | .int n =>
    .ok (match parseTimeHHMMSS n with
         | none => .earlyNone
         | some t => .assigned t)
  | .str s =>
    .ok (match parseTimeHMS s with
         | none => .earlyNone
         | some t => .assigned t)
  | .timeval t => .ok (.assigned t)
  | .timedelta us =>
    if us < 0 || datetimeMaxUs < datetimeMinUs + us then .error "OverflowError"
    else .ok (.assigned (usToTimeOfDay (us % usPerDay)))
  | _ => .ok .unassigned

/-- `create_timestamp(date, time)` of `epidatavault/extract_seizures.py`.
`Except` captures the exceptions the source can raise: `UnboundLocalError`
when neither dispatch chain assigned its local variable and the final
`pd.Timestamp(...)` call reads it, `OverflowError` from the timedelta
branch, and `OutOfBoundsDatetime` from the final `pd.Timestamp(...)`. -/
def create_timestamp (date : DateCell) (time : TimeCell) :
    Except String (Option Timestamp) :=
  if date.isna || time.isna || time = TimeCell.pynone then .ok none
  else if (match time with
           | .str s => lowerStr s = "yes" || lowerStr s = "no"
           | _ => false) then .ok none
  else
    match dispatchDate date with
    | .earlyNone => .ok none
    | dres =>
      match dispatchTime time with
      | .error e => .error e
      | .ok .earlyNone => .ok none
      | .ok tres =>
        match dres, tres with
        | .assigned d, .assigned t =>
          if inTimestampBounds d t then .ok (some ⟨d, t⟩)
          else .error "OutOfBoundsDatetime"
        | _, _ => .error "UnboundLocalError"

/-! ## Event counting (`epidatavault/extract_patients.py`, `count_seizures`)

A classification cell is modelled as `Option String`, `none` being NaN.
`pandasEq` is elementwise `==` of a pandas Series against a scalar: NaN
compares unequal to everything, including NaN itself. -/

def pandasEq (a b : Option String) : Bool :=
  match a, b with
  | some x, some y => x == y
  | _, _ => false

/-- `count_seizures(annotations, seizure_types)`.  The `annotations`
argument is the `Seizure_Classification` column.  In the `["all"]` branch
the iteration runs over the set of values present, so the membership test
of the source (`sz_type in available_sz_types`) is true by construction
there; in the explicit branch the counts are keyed by a dict, so repeated
requested types collapse to one entry (`uniqueFirst`). -/
def count_seizures (cells : List (Option String))
    (seizure_types : Option (List String)) : Option ℤ :=
  let st := match seizure_types with
            | none => ["all"]
            | some l => l
  let available := uniqueFirst cells
  let counts : List ℤ :=
    if st = ["all"] then
      available.map (fun t => (cells.countP (fun c => pandasEq c t) : ℤ))
    else
      (uniqueFirst st).map (fun t =>
        if some t ∈ available then
          (cells.countP (fun c => pandasEq c (some t)) : ℤ)
        else 0)
  let total := counts.sum
  if st ≠ ["all"] ∧ total = 0 then none else some total

/-! ## Event extraction (`epidatavault/extract_seizures.py`) -/

/-- One annotation row, at the columns `extract_seizure_info` reads.  The
electrical-onset cell is accessed with `row.get(...)`, which yields Python
`None` when the column is absent under both spellings; an absent column is
therefore represented by `.pynone`. -/
structure SzRow where
  seizure_classification : Option String
  seizure_count : TimeCell
  seizure_date : DateCell
  electric_onset_cell : TimeCell
  clinical_onset_cell : TimeCell
  generalization_cell : TimeCell
  motor_onset_cell : TimeCell
  end_cell : TimeCell
deriving DecidableEq

structure EventRow where
  p_num : String
  sz_id : Option ℤ
  sz_type : Option String
  sz_date : Option Date
  electric_onset : Option Timestamp
  clinical_onset : Option Timestamp
  generalization : Option Timestamp
  motor_onset : Option Timestamp
  sz_offset : Option Timestamp
deriving DecidableEq

/-- `pd.to_datetime(cell, errors="coerce")` on a `Seizure_Date` cell.
Missing values coerce to NaT; scalars of other runtime types do not occur in
the claims settled here and are mapped to NaT. -/
def to_datetime_coerce : DateCell → Option Date
  | .str s => parseDateIso s
  | .ts d => some d
  | _ => none

/-- The body of the row loop of `extract_seizure_info`: build one event
record.  An exception from any `create_timestamp` call propagates. -/
def buildEventRow (patient_number : String) (r : SzRow) :
    Except String EventRow := do
  let eo ← create_timestamp r.seizure_date r.electric_onset_cell
  let co ← create_timestamp r.seizure_date r.clinical_onset_cell
  let ge ← create_timestamp r.seizure_date r.generalization_cell
  let mo ← create_timestamp r.seizure_date r.motor_onset_cell
  let en ← create_timestamp r.seizure_date r.end_cell
  pure { p_num := patient_number
         sz_id := match r.seizure_count with
                  | .int n => some n
                  | _ => none
         sz_type := r.seizure_classification
         sz_date := to_datetime_coerce r.seizure_date
         electric_onset := eo
         clinical_onset := co
         generalization := ge
         motor_onset := mo
         sz_offset := en }

/-- `extract_seizure_info(annotations, patient_number, seizure_types)`.
The source accumulates nine parallel lists, always appended together inside
one loop body; the embedding represents them row-wise as a list of
`EventRow`.  Events are grouped by seizure type in iteration order, original
row order within a group. -/
def extract_seizure_info (annotations : List SzRow) (patient_number : String)
    (seizure_types : Option (List String)) : Except String (List EventRow) := do
  let tys : List (Option String) :=
    match seizure_types with
    | none => uniqueFirst (annotations.map (·.seizure_classification))
    | some l =>
      if l = ["all"] then uniqueFirst (annotations.map (·.seizure_classification))
      else l.map some
  let groups ← tys.mapM (fun t =>
    (annotations.filter (fun r => pandasEq r.seizure_classification t)).mapM
      (buildEventRow patient_number))
  pure groups.flatten

/-- The patient loop of `build_seizure_datavault`: parse the patient's sheet
and extract its events; on any exception log and skip; keep non-empty
results.  `parse` is the external `annotations.parse(p_num, header=4)`
collaborator (its error also covers a missing required column, which raises
`KeyError` inside the extraction). -/
def collect_seizures (parse : String → Except String (List SzRow))
    (seizure_types : Option (List String)) : List String → List (List EventRow)
  | [] => []
  | p :: ps =>
    match parse p >>= (fun sheet => extract_seizure_info sheet p seizure_types) with
    | .error _ => collect_seizures parse seizure_types ps
    | .ok info =>
      if 0 < info.length then info :: collect_seizures parse seizure_types ps
      else collect_seizures parse seizure_types ps

/-- `build_seizure_datavault(annotations, patient_numbers, seizure_types)`:
the per-patient lists are concatenated by the final column-wise `explode`
into one row per event. -/
def build_seizure_datavault (parse : String → Except String (List SzRow))
    (patient_numbers : List String)
    (seizure_types : Option (List String)) : List EventRow :=
  (collect_seizures parse seizure_types patient_numbers).flatten

/-! ## Patient identity resolution (`epidatavault/extract_patients.py`)

Roster cells come from `pd.read_excel` (possibly after `astype(str)` for the
2018 log): a cell is a string, a number, or the NaN missing marker — never
the Python `None` object.  The loop-local variables `p_id`/`p_name`/`p_sex`
start as `None`, hence their type `Option Cell`. -/

inductive Cell where
  | nan
  | cstr (s : String)
  | cint (n : ℤ)
deriving DecidableEq, Repr

structure Log23Row where
  id_du_patient : Cell
  numero_dossier_chum : Cell
  nom_prenom : Cell
  sex : Cell
deriving DecidableEq

structure Log18Row where
  code : Cell
  dossier_medical : Cell
  nom_participant : Cell
  sexe_participant : Cell
deriving DecidableEq

/-- `log23["ID du patient"].str.lower() == p_num.lower()`: the `.str`
accessor maps a non-string cell to NaN, which compares unequal. -/
def cellLowerEq (c : Cell) (s : String) : Bool :=
  match c with
  | .cstr t => lowerStr t == lowerStr s
  | _ => false

def listContainsSub (hay needle : List Char) : Bool :=
  (List.range (hay.length + 1)).any (fun i => needle.isPrefixOf (hay.drop i))

/-- `log18["# Code"].str.contains(p, case=False, na=False)`: caseless
substring containment; NaN / non-string cells give `False` via `na=False`.
The searched suffixes are digit strings, so the regex compilation of the
source matches them literally. -/
def cellContainsCI (c : Cell) (s : String) : Bool :=
  match c with
  | .cstr t => listContainsSub (lowerStr t).data (lowerStr s).data
  | _ => false

/-- The identity-resolution block of `build_patient_datavault` (source lines
134-158), extracted as a function of the patient code and the two optional
rosters.  `match.iloc[0]` is the first matching row. -/
def resolve_identity (p_num : String) (log23 : Option (List Log23Row))
    (log18 : Option (List Log18Row)) :
    Option Cell × Option Cell × Option Cell :=
  let s0 : Option Cell × Option Cell × Option Cell := (none, none, none)
  let s1 :=
    match log23 with
    | some t =>
      match (t.filter (fun r => cellLowerEq r.id_du_patient p_num)).head? with
      | some r => (some r.numero_dossier_chum, some r.nom_prenom, some r.sex)
      | none => s0
    | none => s0
  match log18 with
  | some t =>
    if s1.1 = none ∨ s1.2.1 = none then
      match (t.filter (fun r => cellContainsCI r.code (strTail p_num))).head? with
      | some r => (some r.dossier_medical, some r.nom_participant,
                   some r.sexe_participant)
      | none => s1
    else s1
  | none => s1

/-- Reference function for the amended claim C5: the older roster is
consulted exactly when the newer roster is absent or has no match (a newer
match always assigns all three variables to non-`None` cell values, so the
`p_id is None or p_name is None` test of the source is false after one). -/
def resolve_identity_amended (p_num : String) (log23 : Option (List Log23Row))
    (log18 : Option (List Log18Row)) :
    Option Cell × Option Cell × Option Cell :=
  match log23.bind
      (fun t => (t.filter (fun r => cellLowerEq r.id_du_patient p_num)).head?) with
  | some r => (some r.numero_dossier_chum, some r.nom_prenom, some r.sex)
  | none =>
    match log18.bind
        (fun t => (t.filter (fun r => cellContainsCI r.code (strTail p_num))).head?) with
    | some r => (some r.dossier_medical, some r.nom_participant,
                 some r.sexe_participant)
    | none => (none, none, none)

/-- Python `str(value)` for the values a resolved identifier can hold:
`str(None) == "None"`, `str(float("nan")) == "nan"`. -/
def pyStr : Option Cell → String
  | none => "None"
  | some .nan => "nan"
  | some (.cstr s) => s
  | some (.cint n) => toString n

/-- The `patient_id` field of the emitted record (source line 162):
`None if p_id == "nan" else str(p_id)`.  Only the literal string `"nan"`
(produced by the 2018 log's `astype(str)` on a missing cell) compares equal
to `"nan"`. -/
def stored_patient_id (p_id : Option Cell) : Option String :=
  if p_id = some (Cell.cstr "nan") then none else some (pyStr p_id)

end EpilepsyTools

namespace EpilepsyTools.Hexoskin

/-! ## Hexoskin loader (`hexoskin/data.py`) -/

/-- `generate_timestamps(start_time, sample_rate, length)`:
`pd.date_range(start=start_time, freq=timedelta(seconds=1/sample_rate),
periods=length)`.  Instants are microseconds; `1/sample_rate` raises
`ZeroDivisionError` on a zero rate, `timedelta` rounds the fractional
seconds to whole microseconds half-to-even, and `date_range` raises
`ValueError` when the rounded tick is zero microseconds (a zero-duration
`timedelta` is not a valid frequency — this happens for every rate of
2 MHz and above); otherwise it adds the fixed tick `length` times. -/
def generate_timestamps (start_time : ℤ) (sample_rate : ℚ) (length : ℕ) :
    Except String (List ℤ) :=
  if sample_rate = 0 then .error "ZeroDivisionError: float division by zero"
  else
    let freq_us : ℤ := roundHalfEven (1 / sample_rate * 1000000)
    if freq_us = 0 then
      .error "ValueError: offset must represent a positive time duration"
    else
      .ok ((List.range length).map (fun k : ℕ => start_time + (k : ℤ) * freq_us))

/-- One entry of the `signal_headers` list returned by
`pyedflib.highlevel.read_edf`. -/
structure EdfSignalHeader where
  label : String
  sample_frequency : ℚ
deriving DecidableEq, Repr

/-- `_parse_label`: drop everything up to and including the first `:`;
`str.index` raises `ValueError` when there is none. -/
def parse_label (label : String) : Except String String :=
  match label.toList.findIdx? (· = ':') with
  | none => .error "ValueError: substring not found"
  | some i => .ok ((label.toList.drop (i + 1)).asString)

/-- The per-channel scatter `metric_data[::stride] = signal` into an
`np.full(max_length, np.nan)` vector. -/
def scatterChannel (max_length stride : ℕ) (signal : List (Option ℚ)) :
    List (Option ℚ) :=
  (List.range max_length).map
    (fun j => if j % stride = 0 then signal.getD (j / stride) none else none)

/-- `data[label] = metric_data` on a DataFrame: replace the column if the
label exists, else append it. -/
def dfSetCol (df : List (String × List (Option ℚ))) (l : String)
    (col : List (Option ℚ)) : List (String × List (Option ℚ)) :=
  if df.any (fun p => p.1 == l) then
    df.map (fun p => if p.1 == l then (l, col) else p)
  else df ++ [(l, col)]

/-- Python `int(a / b)` on rationals: truncation toward zero, computed on
numerators and denominators (the caller checks `b ≠ 0` first, as the source
divides before `int()` and a zero rate raises `ZeroDivisionError`). -/
def truncDivRat (a b : ℚ) : ℤ := (a.num * (b.den : ℤ)).tdiv (b.num * (a.den : ℤ))

/-- The stride `int(max_rate / signal_header["sample_frequency"])` of one
channel, as a natural number slice step. -/
def strideOf (max_sample_rate : ℚ) (h : EdfSignalHeader) : ℕ :=
  (truncDivRat max_sample_rate h.sample_frequency).toNat

/-- The body of the per-channel loop of `load_data`: scatter the channel
into a sentinel-filled vector and assign it as a DataFrame column.  A zero
stride raises `ValueError` at the slice `[::0]`; a wrong signal length
raises the NumPy broadcast error. -/
def loadStep (max_sample_rate : ℚ) (max_length : ℕ)
    (df : List (String × List (Option ℚ)))
    (sh : List (Option ℚ) × EdfSignalHeader) :
    Except String (List (String × List (Option ℚ))) :=
  if sh.2.sample_frequency = 0 then .error "ZeroDivisionError"
  else if truncDivRat max_sample_rate sh.2.sample_frequency ≤ 0 then
    .error "ValueError: slice step cannot be zero"
  else
    let strideN : ℕ := strideOf max_sample_rate sh.2
    if sh.1.length ≠ (max_length + strideN - 1) / strideN then
      .error "ValueError: could not broadcast input array"
    else do
      let lab ← parse_label sh.2.label
      pure (dfSetCol df lab (scatterChannel max_length strideN sh.1))

/-- `load_data(file, as_dataframe=True)` after the external decoder: raw
per-channel sample lists (a cell is `none` when the decoded sample is NaN),
their headers, and the header start instant.  Returns the timestamp index
and the DataFrame columns.  Model notes: the strict-zip length check is
hoisted before the loop; a `ValueError` raised by `pd.date_range` on a
zero-microsecond tick propagates out of the loader. -/
def load_data (signals : List (List (Option ℚ)))
    (signal_headers : List EdfSignalHeader) (startdate_us : ℤ) :
    Except String (List ℤ × List (String × List (Option ℚ))) := do
  let max_sample_rate ←
    match signal_headers.map (·.sample_frequency) with
    | [] => .error "ValueError: max() arg is an empty sequence"
    | r :: rs => .ok (rs.foldl max r)
  let max_length ←
    match signals.map List.length with
    | [] => .error "ValueError: max() arg is an empty sequence"
    | l :: ls => .ok (ls.foldl max l)
  let timestamps ← generate_timestamps startdate_us max_sample_rate max_length
  if signals.length ≠ signal_headers.length then
    .error "ValueError: zip() argument lengths differ"
  else
    let df ← (signals.zip signal_headers).foldlM
      (loadStep max_sample_rate max_length) []
    pure (timestamps, df)

/-- `load_data(file, as_dataframe=False)`: one compacted series per column
of the same DataFrame, `dropna` removing the sentinel positions. -/
def load_data_dict (signals : List (List (Option ℚ)))
    (signal_headers : List EdfSignalHeader) (startdate_us : ℤ) :
    Except String (List (String × List (Option ℚ))) :=
  (load_data signals signal_headers startdate_us).map
    (fun td => td.2.map (fun p => (p.1, p.2.filter Option.isSome)))

end EpilepsyTools.Hexoskin

namespace EpilepsyTools.Cometa

/-! ## Cometa loader (`cometa/data.py`) -/

/-- `generate_timestamps(c3d_filepath, time)` of `cometa/data.py`,
parameterized by the quantities the source reads from its arguments:
`T = time[1] - time[0]` (seconds, requiring `len(time) ≥ 2`),
`n = len(time)`, and the file's last-modification instant.  It computes
`dur = (n-1)*T`, infers `time_started = mtime - timedelta(seconds=dur)`,
and dates `n` points `time_started + k*timedelta(seconds=T)`; both
`timedelta` conversions round to whole microseconds half-to-even, and
`pd.date_range` raises `ValueError` when the per-step tick rounds to zero
microseconds.  The model multiplies exact rationals where the source
multiplies IEEE doubles, which can land on the other side of a
half-microsecond rounding tie; the concrete instances proved below
therefore use dyadic values of `T`, for which the source's float products
are exact and model and program agree. -/
def generate_timestamps (mtime_us : ℤ) (T : ℚ) (n : ℕ) :
    Except String (List ℤ) :=
  let dur : ℚ := ((n : ℚ) - 1) * T
  let time_started : ℤ := mtime_us - EpilepsyTools.roundHalfEven (dur * 1000000)
  let freq_us : ℤ := EpilepsyTools.roundHalfEven (T * 1000000)
  if freq_us = 0 then
    .error "ValueError: offset must represent a positive time duration"
  else
    .ok ((List.range n).map (fun k : ℕ => time_started + (k : ℤ) * freq_us))

/-- `np.trim_zeros(x, "b")`: strip trailing exact zeros. -/
def trimZerosBack (xs : List ℚ) : List ℚ :=
  (xs.reverse.dropWhile (fun x => x == 0)).reverse

/-- The decoded content of a `.c3d` file as the loader consumes it: the
frame-concatenated analog array (`np.concatenate(analog_samples, axis=0)`,
one inner list per time step), the channel labels, the analog sample rate,
and the file's last-modification instant. -/
structure C3dInput where
  rows : List (List ℚ)
  labels : List String
  analog_rate : ℚ
  mtime_us : ℤ
deriving DecidableEq

/-- `.str.strip().str.replace(r"\s+", " ", regex=True)` on a label. -/
def normalizeLabel (s : String) : String :=
  ((((splitOnP Char.isWhitespace s.data).filter (fun t => t ≠ [])).intersperse
      [' ']).flatten).asString

structure Table where
  index : List ℤ
  cols : List (String × List (Option ℚ))
deriving DecidableEq

/-- `DataFrame.fillna(v)`: a new table with every missing cell replaced. -/
def fillnaTable (v : ℚ) (t : Table) : Table :=
  { index := t.index
    cols := t.cols.map (fun p => (p.1, p.2.map (fun c => some (c.getD v)))) }

/-- The maximum per-channel length after the trailing-zero trim: the
row count of `data.apply(lambda x: np.trim_zeros(x, "b"), axis=0)`, whose
index is the union of the per-column trimmed ranges. -/
def maxTrimLen (inp : C3dInput) : ℕ :=
  let cols := (List.range inp.labels.length).map
    (fun j => inp.rows.map (fun r => r.getD j 0))
  let trimmed := cols.map trimZerosBack
  (trimmed.map List.length).foldr max 0

/-- `load_data(file)` of `cometa/data.py` after the external `.c3d` decoder
(the extension check and binary decoding are the boundary).  Columns
shortened by the per-channel trim are re-aligned by pandas to the union
index with NaN at the missing trailing positions.  `np.linspace(0.0, dur,
num=len(data))` has first gap `dur/(len-1)`; `generate_timestamps` reads
exactly that gap and the length, and a `ValueError` it raises on a
zero-microsecond tick propagates out of the loader.  The final
`data.fillna(0)` result is discarded, as in the source. -/
def load_data (inp : C3dInput) : Except String Table :=
  let cols := (List.range inp.labels.length).map
    (fun j => inp.rows.map (fun r => r.getD j 0))
  let trimmed := cols.map trimZerosBack
  let nrows := (trimmed.map List.length).foldr max 0
  let aligned : List (List (Option ℚ)) :=
    trimmed.map (fun c => (List.range nrows).map (fun i => c.get? i))
  if inp.analog_rate = 0 then .error "ZeroDivisionError"
  else if nrows < 2 then .error "IndexError: index 1 is out of bounds"
  else
    let T : ℚ := 1 / inp.analog_rate
    let dur : ℚ := ((nrows : ℚ) - 1) * T
    let step : ℚ := dur / ((nrows : ℚ) - 1)
    match generate_timestamps inp.mtime_us step nrows with
    | .error e => .error e
    | .ok timestamps =>
      let table : Table :=
        ⟨timestamps, (inp.labels.map normalizeLabel).zip aligned⟩
      let _ := fillnaTable 0 table
      .ok table

/-- `load_data` up to (and excluding) the dead `data.fillna(0)` statement
of source line 294: the table as it stands immediately before it. -/
def load_table_pre_fillna (inp : C3dInput) : Except String Table :=
  let cols := (List.range inp.labels.length).map
    (fun j => inp.rows.map (fun r => r.getD j 0))
  let trimmed := cols.map trimZerosBack
  let nrows := (trimmed.map List.length).foldr max 0
  let aligned : List (List (Option ℚ)) :=
    trimmed.map (fun c => (List.range nrows).map (fun i => c.get? i))
  if inp.analog_rate = 0 then .error "ZeroDivisionError"
  else if nrows < 2 then .error "IndexError: index 1 is out of bounds"
  else
    let T : ℚ := 1 / inp.analog_rate
    let dur : ℚ := ((nrows : ℚ) - 1) * T
    let step : ℚ := dur / ((nrows : ℚ) - 1)
    match generate_timestamps inp.mtime_us step nrows with
    | .error e => .error e
    | .ok timestamps =>
      .ok ⟨timestamps, (inp.labels.map normalizeLabel).zip aligned⟩

/-- The table `load_data` returns on the two-sample single-channel input
`⟨[[1], [2]], ["ch"], 1, 0⟩`, extracted by computation. -/
def c2WitnessTable : Table :=
  match load_data ⟨[[1], [2]], ["ch"], 1, 0⟩ with
  | .ok t => t
  | .error _ => ⟨[], []⟩

end EpilepsyTools.Cometa

namespace EpilepsyTools

/-! ### Concrete inputs used by witnesses -/

def exRow : SzRow :=
  { seizure_classification := some "FIAS"
    seizure_count := .int 1
    seizure_date := .str "2021-01-01"
    electric_onset_cell := .str "12:00:00"
    clinical_onset_cell := .str "12:00:05"
    generalization_cell := .pynone
    motor_onset_cell := .nan
    end_cell := .str "12:01:00" }

/-- A workbook with one malformed sheet (patient `p1`) and one well-formed
single-row sheet for every other patient. -/
def exParse : String → Except String (List SzRow) :=
  fun p => if p = "p1" then .error "sheet missing" else .ok [exRow]

/-- The event `extract_seizure_info` derives from `exRow`. -/
def exEvent (p : String) : EventRow :=
  { p_num := p
    sz_id := some 1
    sz_type := some "FIAS"
    sz_date := some ⟨2021, 1, 1⟩
    electric_onset := some ⟨⟨2021, 1, 1⟩, ⟨12, 0, 0, 0⟩⟩
    clinical_onset := some ⟨⟨2021, 1, 1⟩, ⟨12, 0, 5, 0⟩⟩
    generalization := none
    motor_onset := none
    sz_offset := some ⟨⟨2021, 1, 1⟩, ⟨12, 1, 0, 0⟩⟩ }

/-! ## Theorems -/

/-- Claim C1 (code bug): `create_timestamp` is claimed never to raise, any
parse failure yielding null — including time values whose runtime type is
none of the dispatched representations, such as a non-NaN float.  The code
violates this: with `date = "2021-01-01"` and `time = 1.5` every
`isinstance` branch is skipped, `time_ts` is never assigned, and the final
`pd.Timestamp(...)` raises `UnboundLocalError`. -/
theorem create_timestamp_undispatched_time_raises :
    create_timestamp (DateCell.str "2021-01-01") TimeCell.other
      = Except.error "UnboundLocalError" := rfl

/-- Counterexample to claim C5: a newer-roster match whose identifier cell
is the NaN missing marker.  The claim says identity resolution then falls
back to the older roster for the still-null identifier; the code tests
`p_id is None`, NaN is not `None`, so the older roster (which here holds
identifier "123" for the matching code suffix "001") is never consulted and
the identifier stays NaN. -/
theorem resolve_identity_nan_id_skips_older_roster :
    resolve_identity "p001"
        (some [⟨Cell.cstr "p001", Cell.nan, Cell.cstr "Alice", Cell.cstr "F"⟩])
        (some [⟨Cell.cstr "code 001", Cell.cstr "123", Cell.cstr "Bob",
               Cell.cstr "M"⟩])
      = (some Cell.nan, some (Cell.cstr "Alice"), some (Cell.cstr "F"))
    ∧ some Cell.nan ≠ some (Cell.cstr "123") := by decide

/-- Claim C5, amended: the older roster is consulted exactly when the newer
roster is absent or has no case-insensitive match for the code; a
newer-roster match uses that row's identifier/name/sex outright (even when
those cells hold missing markers); when the older roster is consulted all
three fields are still null, so assigning all three coincides with filling
the null ones; if neither roster matches, all three remain null. -/
theorem resolve_identity_eq_amended (p : String)
    (log23 : Option (List Log23Row)) (log18 : Option (List Log18Row)) :
    resolve_identity p log23 log18 = resolve_identity_amended p log23 log18 := by
  unfold resolve_identity resolve_identity_amended
  simp only [List.filter_head?]
  cases log23 with
  | none =>
    cases log18 with
    | none => rfl
    | some t =>
      cases h : t.find? (fun r => cellContainsCI r.code (strTail p)) <;> simp [h]
  | some t23 =>
    cases h23 : t23.find? (fun r => cellLowerEq r.id_du_patient p) with
    | none =>
      cases log18 with
      | none => simp [h23]
      | some t =>
        cases h : t.find? (fun r => cellContainsCI r.code (strTail p)) <;>
          simp [h, h23]
    | some r =>
      cases log18 with
      | none => simp [h23]
      | some t => simp [h23]

theorem mem_uniqueFirstAux {α : Type} [DecidableEq α] (l : List α) (seen : List α)
    (x : α) : x ∈ uniqueFirstAux l seen ↔ x ∈ l ∧ x ∉ seen := by
  induction l generalizing seen with
  | nil => simp [uniqueFirstAux]
  | cons a l ih =>
    simp only [uniqueFirstAux]
    by_cases ha : a ∈ seen
    · rw [if_pos ha, ih]
      simp only [List.mem_cons]
      constructor
      · rintro ⟨hx, hns⟩
        exact ⟨Or.inr hx, hns⟩
      · rintro ⟨hx | hx, hns⟩
        · exact absurd (hx ▸ ha) hns
        · exact ⟨hx, hns⟩
    · rw [if_neg ha]
      simp only [List.mem_cons, ih, List.mem_cons]
      constructor
      · rintro (hx | ⟨hx, hns⟩)
        · exact ⟨Or.inl hx, hx ▸ ha⟩
        · exact ⟨Or.inr hx, fun hs => hns (Or.inr hs)⟩
      · rintro ⟨hx | hx, hns⟩
        · exact Or.inl hx
        · by_cases hxa : x = a
          · exact Or.inl hxa
          · exact Or.inr ⟨hx, fun hs => by
              rcases hs with h1 | h1
              · exact hxa h1
              · exact hns h1⟩

theorem nodup_uniqueFirstAux {α : Type} [DecidableEq α] (l : List α)
    (seen : List α) : (uniqueFirstAux l seen).Nodup := by
  induction l generalizing seen with
  | nil => simp [uniqueFirstAux]
  | cons a l ih =>
    simp only [uniqueFirstAux]
    split
    · exact ih seen
    · rw [List.nodup_cons]
      refine ⟨fun hmem => ?_, ih (a :: seen)⟩
      exact ((mem_uniqueFirstAux l (a :: seen) a).mp hmem).2 (List.mem_cons_self a seen)

theorem mem_uniqueFirst {α : Type} [DecidableEq α] {l : List α} {x : α} :
    x ∈ uniqueFirst l ↔ x ∈ l := by
  simp [uniqueFirst, mem_uniqueFirstAux]

theorem nodup_uniqueFirst {α : Type} [DecidableEq α] (l : List α) :
    (uniqueFirst l).Nodup :=
  nodup_uniqueFirstAux l []

theorem pandasEq_iff (c t : Option String) :
    pandasEq c t = true ↔ c = t ∧ c.isSome = true := by
  cases c <;> cases t <;> simp [pandasEq]

theorem sum_map_add_nat {α : Type} (u : List α) (f g : α → ℕ) :
    (u.map (fun t => f t + g t)).sum = (u.map f).sum + (u.map g).sum := by
  induction u with
  | nil => simp
  | cons a u ih => simp [ih]; omega

theorem sum_map_intCast {α : Type} (u : List α) (f : α → ℕ) :
    (u.map (fun t => (f t : ℤ))).sum = ((u.map f).sum : ℤ) := by
  induction u with
  | nil => simp
  | cons a u ih => simp [ih]

theorem sum_indicator_pandasEq (c : Option String) (u : List (Option String))
    (hu : u.Nodup) :
    (u.map (fun t => if pandasEq c t then (1 : ℕ) else 0)).sum
      = if c.isSome = true ∧ c ∈ u then 1 else 0 := by
  induction u with
  | nil => simp
  | cons t u ih =>
    rw [List.nodup_cons] at hu
    rw [List.map_cons, List.sum_cons, ih hu.2]
    by_cases h : pandasEq c t = true
    · obtain ⟨hct, hsome⟩ := (pandasEq_iff c t).mp h
      subst hct
      simp [h, hsome, hu.1]
    · by_cases hs : c.isSome = true
      · have hne : c ≠ t := fun hct => h ((pandasEq_iff c t).mpr ⟨hct, hs⟩)
        simp [h, hs, List.mem_cons, hne]
      · simp [h, hs]

theorem sum_counts_pandasEq (cells : List (Option String))
    (u : List (Option String)) (hu : u.Nodup) :
    (u.map (fun t => cells.countP (fun c => pandasEq c t))).sum
      = cells.countP (fun c => c.isSome && decide (c ∈ u)) := by
  induction cells with
  | nil => simp
  | cons c cells ih =>
    simp only [List.countP_cons]
    rw [sum_map_add_nat, ih, sum_indicator_pandasEq c u hu]
    by_cases h : c.isSome = true ∧ c ∈ u <;> simp [h]

/-- Claim C10: the emitted `patient_id` field stores null when the resolved
identifier is the literal string `"nan"` (the stringified missing value the
2018 roster loader's `astype(str)` produces), and stores the Python string
form of any other resolved identifier. -/
theorem stored_patient_id_spec (p : String)
    (log23 : Option (List Log23Row)) (log18 : Option (List Log18Row)) :
    ((resolve_identity p log23 log18).1 = some (Cell.cstr "nan") →
      stored_patient_id (resolve_identity p log23 log18).1 = none)
    ∧ ((resolve_identity p log23 log18).1 ≠ some (Cell.cstr "nan") →
      stored_patient_id (resolve_identity p log23 log18).1
        = some (pyStr (resolve_identity p log23 log18).1)) := by
  constructor
  · intro h
    simp [stored_patient_id, h]
  · intro h
    simp [stored_patient_id, h]

theorem stored_patient_id_spec_witness :
    stored_patient_id (resolve_identity "p001" none
        (some [⟨Cell.cstr "code 001", Cell.cstr "nan", Cell.cstr "Bob",
               Cell.cstr "M"⟩])).1 = none := by
  have h := stored_patient_id_spec "p001" none
    (some [⟨Cell.cstr "code 001", Cell.cstr "nan", Cell.cstr "Bob",
           Cell.cstr "M"⟩])
  exact h.1 (by decide)

/-- Counterexample to claim C3: with the null filter, `count_seizures` is
claimed to return the total row count.  On a one-row table whose
classification cell is NaN it returns 0, not 1: NaN appears in `unique()`
but `Series == NaN` matches no row. -/
theorem count_seizures_nan_row_counterexample :
    count_seizures [none] none = some 0
    ∧ count_seizures [none] none
        ≠ some (([(none : Option String)].length : ℕ) : ℤ) := by decide

/-- Claim C3, amended: with the null filter `count_seizures` returns the
number of rows whose classification is non-null (0, not null, on an empty
table); with a requested list other than the literal `["all"]` it returns
the number of rows whose classification is in the list, except null instead
of 0 when that number is zero.  (The literal `["all"]` is the no-filter
sentinel and behaves like the null filter.) -/
theorem count_seizures_characterization (cells : List (Option String)) :
    count_seizures cells none
      = some ((cells.countP (fun c => c.isSome) : ℕ) : ℤ)
    ∧ ∀ req : List String, req ≠ ["all"] →
      count_seizures cells (some req)
        = (if cells.countP (fun c =>
              match c with
              | some s => decide (s ∈ req)
              | none => false) = 0 then none
           else some ((cells.countP (fun c =>
              match c with
              | some s => decide (s ∈ req)
              | none => false) : ℕ) : ℤ)) := by
  constructor
  · have h1 : count_seizures cells none
        = some (((uniqueFirst cells).map
            (fun t => (cells.countP (fun c => pandasEq c t) : ℤ))).sum) := by
      simp [count_seizures]
    rw [h1]
    congr 1
    rw [sum_map_intCast, sum_counts_pandasEq cells _ (nodup_uniqueFirst cells)]
    congr 1
    apply List.countP_congr
    intro c hc
    cases c with
    | none => simp
    | some s => simp [mem_uniqueFirst, hc]
  · intro req hreq
    simp only [count_seizures]
    rw [if_neg hreq]
    have hmapeq : (uniqueFirst req).map (fun t =>
          if some t ∈ uniqueFirst cells then
            (cells.countP (fun c => pandasEq c (some t)) : ℤ)
          else 0)
        = (uniqueFirst req).map
            (fun t => (cells.countP (fun c => pandasEq c (some t)) : ℤ)) := by
      apply List.map_congr_left
      intro t _
      by_cases hmem : some t ∈ uniqueFirst cells
      · rw [if_pos hmem]
      · rw [if_neg hmem]
        have hz : cells.countP (fun c => pandasEq c (some t)) = 0 := by
          rw [List.countP_eq_zero]
          intro c hc hpc
          obtain ⟨hct, _⟩ := (pandasEq_iff c (some t)).mp hpc
          exact hmem (mem_uniqueFirst.mpr (hct ▸ hc))
        simp [hz]
    have hcomp : (uniqueFirst req).map
          (fun t => cells.countP (fun c => pandasEq c (some t)))
        = ((uniqueFirst req).map some).map
            (fun t => cells.countP (fun c => pandasEq c t)) := by
      rw [List.map_map]
      rfl
    have hnodup : (((uniqueFirst req).map some) :
        List (Option String)).Nodup :=
      (nodup_uniqueFirst req).map (Option.some_injective String)
    have hpred : cells.countP (fun c =>
          c.isSome && decide (c ∈ (uniqueFirst req).map some))
        = cells.countP (fun c =>
            match c with
            | some s => decide (s ∈ req)
            | none => false) := by
      apply List.countP_congr
      intro c _
      cases c with
      | none => simp
      | some s =>
        simp only [Option.isSome_some, Bool.true_and, decide_eq_true_eq]
        rw [List.mem_map]
        constructor
        · rintro ⟨t, ht, hts⟩
          exact mem_uniqueFirst.mp ((Option.some_injective String hts) ▸ ht)
        · intro hs
          exact ⟨s, mem_uniqueFirst.mpr hs, rfl⟩
    have hT : ((uniqueFirst req).map (fun t =>
          if some t ∈ uniqueFirst cells then
            (cells.countP (fun c => pandasEq c (some t)) : ℤ)
          else 0)).sum
        = ((cells.countP (fun c =>
            match c with
            | some s => decide (s ∈ req)
            | none => false) : ℕ) : ℤ) := by
      rw [hmapeq, sum_map_intCast, hcomp,
        sum_counts_pandasEq cells _ hnodup, hpred]
    rw [hT]
    by_cases hn : cells.countP (fun c =>
        match c with
        | some s => decide (s ∈ req)
        | none => false) = 0
    · simp [hn, hreq]
    · have hnz : ¬(((cells.countP (fun c =>
          match c with
          | some s => decide (s ∈ req)
          | none => false) : ℕ) : ℤ) = 0) := by
        exact_mod_cast hn
      simp [hn, hnz]

theorem count_seizures_characterization_witness :
    count_seizures [some "A"] (some ["A"]) = some 1 := by
  have h := (count_seizures_characterization [some "A"]).2 ["A"] (by decide)
  rw [h]
  decide

theorem collect_seizures_cons_error
    (parse : String → Except String (List SzRow))
    (seizure_types : Option (List String)) (p : String) (ps : List String)
    (e : String)
    (h : parse p >>= (fun sheet => extract_seizure_info sheet p seizure_types)
      = .error e) :
    collect_seizures parse seizure_types (p :: ps)
      = collect_seizures parse seizure_types ps := by
  conv_lhs => rw [collect_seizures]
  rw [h]

theorem collect_seizures_cons_ok
    (parse : String → Except String (List SzRow))
    (seizure_types : Option (List String)) (p : String) (ps : List String)
    (info : List EventRow)
    (h : parse p >>= (fun sheet => extract_seizure_info sheet p seizure_types)
      = .ok info) :
    collect_seizures parse seizure_types (p :: ps)
      = (if 0 < info.length then
           info :: collect_seizures parse seizure_types ps
         else collect_seizures parse seizure_types ps) := by
  conv_lhs => rw [collect_seizures]
  rw [h]

/-- Claim C4: with exactly one patient whose per-patient processing fails,
`build_seizure_datavault` does not raise (the loop body's exception handler
is the `match` on the `Except`): it skips that patient and returns exactly
the events of the others, one row per event, in patient order. -/
theorem build_seizure_datavault_skips_failing
    (parse : String → Except String (List SzRow))
    (seizure_types : Option (List String)) (patient_numbers : List String)
    (pstar err : String) (events : String → List EventRow)
    (hfail : parse pstar >>= (fun s => extract_seizure_info s pstar seizure_types)
      = .error err)
    (hok : ∀ p, p ≠ pstar →
      parse p >>= (fun s => extract_seizure_info s p seizure_types)
        = .ok (events p)) :
    build_seizure_datavault parse patient_numbers seizure_types
      = (patient_numbers.filter (fun p => p ≠ pstar)).flatMap events := by
  unfold build_seizure_datavault
  induction patient_numbers with
  | nil => rfl
  | cons p ps ih =>
    by_cases hp : p = pstar
    · subst hp
      rw [collect_seizures_cons_error _ _ _ _ _ hfail]
      simp only [List.filter_cons]
      rw [if_neg (by simp)]
      exact ih
    · rw [collect_seizures_cons_ok parse seizure_types p ps (events p) (hok p hp)]
      simp only [List.filter_cons]
      rw [if_pos (decide_eq_true hp)]
      by_cases hlen : 0 < (events p).length
      · rw [if_pos hlen]
        rw [List.flatten_cons, List.flatMap_cons, ih]
      · rw [if_neg hlen]
        have hnil : events p = [] := by
          cases hev : events p with
          | nil => rfl
          | cons a l => rw [hev] at hlen; simp at hlen
        rw [List.flatMap_cons, hnil, ih]
        rfl

theorem abs_roundHalfEven_sub (q : ℚ) : |(roundHalfEven q : ℚ) - q| ≤ 1 / 2 := by
  unfold roundHalfEven
  simp only []
  have h0 : (0 : ℚ) ≤ q - ⌊q⌋ := by
    have := Int.floor_le q
    linarith
  have h1 : q - ⌊q⌋ < 1 := by
    have := Int.lt_floor_add_one q
    linarith
  split_ifs with hlt hgt hev
  · rw [abs_sub_comm, abs_of_nonneg h0]
    linarith
  · push_cast
    rw [abs_of_nonneg (by linarith)]
    linarith
  · have heq : q - ⌊q⌋ = 1 / 2 := le_antisymm (not_lt.mp hgt) (not_lt.mp hlt)
    rw [abs_sub_comm, abs_of_nonneg h0]
    linarith
  · have heq : q - ⌊q⌋ = 1 / 2 := le_antisymm (not_lt.mp hgt) (not_lt.mp hlt)
    push_cast
    rw [abs_of_nonneg (by linarith)]
    linarith

theorem roundHalfEven_intCast (z : ℤ) : roundHalfEven (z : ℚ) = z := by
  unfold roundHalfEven
  rw [Int.floor_intCast]
  rw [if_pos (by norm_num)]

theorem getD_range_map {α : Type} (f : ℕ → α) (n i : ℕ) (d : α) (h : i < n) :
    (((List.range n).map f).getD i d) = f i := by
  have hlen : i < ((List.range n).map f).length := by simp [h]
  rw [List.getD_eq_getElem _ _ hlen]
  simp

theorem getLast?_range_map {α : Type} (f : ℕ → α) (n : ℕ) (h : 1 ≤ n) :
    ((List.range n).map f).getLast? = some (f (n - 1)) := by
  obtain ⟨m, rfl⟩ : ∃ m, n = m + 1 := ⟨n - 1, by omega⟩
  rw [List.range_succ, List.map_append]
  simp

theorem except_map_ok {ε α β : Type} (f : α → β) (a : α) :
    (Except.ok a : Except ε α).map f = .ok (f a) := rfl

/-- The successful branch of the wearable synthesizer, under the two
hypotheses that its error paths do not fire. -/
theorem hexoskin_generate_timestamps_ok (s : ℤ) (r : ℚ) (n : ℕ)
    (hr : r ≠ 0) (htick : roundHalfEven (1 / r * 1000000) ≠ 0) :
    Hexoskin.generate_timestamps s r n
      = .ok ((List.range n).map
          (fun k : ℕ => s + (k : ℤ) * roundHalfEven (1 / r * 1000000))) := by
  unfold Hexoskin.generate_timestamps
  rw [if_neg hr]
  simp only []
  rw [if_neg htick]

/-- Counterexample to claim C6, which asserts the wearable synthesizer
returns `n` timestamps for every rate `r > 0`: at rate `r = 2·10^6` Hz the
period `1/r` is half a microsecond, `timedelta` rounds it half-to-even to a
zero-microsecond tick, and `pd.date_range` raises `ValueError` on a
zero-duration frequency instead of returning timestamps (the same happens
at every rate of 2 MHz and above). -/
theorem hexoskin_generate_timestamps_zero_tick_counterexample :
    Hexoskin.generate_timestamps 0 2000000 3
      = .error "ValueError: offset must represent a positive time duration"
    := by
  have h : roundHalfEven (1 / (2000000 : ℚ) * 1000000) = 0 := by
    unfold roundHalfEven
    norm_num
  unfold Hexoskin.generate_timestamps
  rw [if_neg (by norm_num)]
  simp only []
  rw [if_pos h]

/-- Claim C6, amended: for every start instant, count `n ≥ 1`, and rate
`r > 0` whose microsecond-rounded period is nonzero (every rate below
2 MHz), the wearable timestamp synthesizer succeeds and returns exactly `n`
timestamps, the first equals the start, every consecutive gap equals the
microsecond-rounded period (within half a microsecond of `10^6/r`, the
floating tolerance), and for `n = 1` the result is the single-element
sequence `[s]`. -/
theorem hexoskin_generate_timestamps_spec (s : ℤ) (r : ℚ) (n : ℕ)
    (hr : 0 < r) (hn : 1 ≤ n)
    (htick : roundHalfEven (1 / r * 1000000) ≠ 0) :
    (Hexoskin.generate_timestamps s r n).map List.length = .ok n
    ∧ (Hexoskin.generate_timestamps s r n).map (fun ts => ts.getD 0 0) = .ok s
    ∧ (∀ i : ℕ, i + 1 < n →
        (Hexoskin.generate_timestamps s r n).map
            (fun ts => ts.getD (i + 1) 0 - ts.getD i 0)
          = .ok (roundHalfEven (1 / r * 1000000))
        ∧ |(roundHalfEven (1 / r * 1000000) : ℚ) - 1 / r * 1000000| ≤ 1 / 2)
    ∧ (n = 1 → Hexoskin.generate_timestamps s r n = .ok [s]) := by
  have hok := hexoskin_generate_timestamps_ok s r n hr.ne' htick
  refine ⟨?_, ?_, ?_, ?_⟩
  · rw [hok, except_map_ok]
    simp
  · rw [hok, except_map_ok]
    simp only [Except.ok.injEq]
    rw [getD_range_map _ _ _ _ (by omega)]
    simp
  · intro i hi
    refine ⟨?_, abs_roundHalfEven_sub _⟩
    rw [hok, except_map_ok]
    simp only [Except.ok.injEq]
    rw [getD_range_map _ _ _ _ hi, getD_range_map _ _ _ _ (by omega)]
    push_cast
    ring
  · intro h1
    subst h1
    rw [hok]
    simp [List.range_succ]

theorem hexoskin_generate_timestamps_spec_witness :
    (Hexoskin.generate_timestamps 0 2 3).map List.length = .ok 3
    ∧ (Hexoskin.generate_timestamps 0 2 3).map (fun ts => ts.getD 0 0)
        = .ok 0 := by
  have h := hexoskin_generate_timestamps_spec 0 2 3 (by norm_num) (by norm_num)
    (by unfold roundHalfEven; norm_num)
  exact ⟨h.1, h.2.1⟩

/-- Counterexample to claim C7: the inferred-start synthesis is claimed to
end within one period of the reference instant for every period derived
from a sample rate.  With rate `2^19 = 524288` Hz the period is
`T = 2^(-19)` s, i.e. `1.9073486328125` microseconds — a dyadic value, so
every floating product the source computes at this input is exact.  With
`n = 33` points the per-step `timedelta` rounds to 2 microseconds while the
duration `32·T = 61.03515625` microseconds rounds to 61, so the last
timestamp lands 3 microseconds after the reference instant `m = 0` — more
than one period away. -/
theorem cometa_generate_timestamps_drift_counterexample :
    (Cometa.generate_timestamps 0 (1 / 524288) 33).map List.length = .ok 33
    ∧ (Cometa.generate_timestamps 0 (1 / 524288) 33).map List.getLast?
        = .ok (some 3)
    ∧ ¬(|(3 : ℚ) - 0| ≤ 1 / 524288 * 1000000) := by
  have hT : roundHalfEven ((1 / 524288 : ℚ) * 1000000) = 2 := by
    unfold roundHalfEven
    norm_num
  have hD : roundHalfEven ((((33 : ℕ) : ℚ) - 1) * (1 / 524288) * 1000000)
      = 61 := by
    unfold roundHalfEven
    norm_num
  have hne : roundHalfEven ((1 / 524288 : ℚ) * 1000000) ≠ 0 := by
    rw [hT]
    norm_num
  refine ⟨?_, ?_, ?_⟩
  · unfold Cometa.generate_timestamps
    simp only []
    rw [if_neg hne, except_map_ok]
    simp
  · unfold Cometa.generate_timestamps
    simp only []
    rw [if_neg hne, except_map_ok]
    simp only [Except.ok.injEq]
    rw [getLast?_range_map _ _ (by norm_num)]
    rw [hD, hT]
    norm_num
  · norm_num

/-- Claim C7, amended: when the period is a whole number of microseconds
(`T = Tus/10^6` seconds, `Tus` a positive integer, as for every sample rate
dividing 10^6), the composed inference (`start = mtime − duration`) and
synthesis succeed with an index of length `n` whose last element equals the
reference instant exactly — in particular within one period of it.  For a
fractional-microsecond period the two `timedelta` roundings drift apart by
up to `(n−1)/2` microseconds, which can exceed any number of periods (see
the counterexample). -/
theorem cometa_generate_timestamps_integer_period (m : ℤ) (Tus : ℤ) (n : ℕ)
    (hT : 0 < Tus) (hn : 1 ≤ n) :
    (Cometa.generate_timestamps m ((Tus : ℚ) / 1000000) n).map List.length
        = .ok n
    ∧ (Cometa.generate_timestamps m ((Tus : ℚ) / 1000000) n).map List.getLast?
        = .ok (some m) := by
  have harg2 : ((Tus : ℚ) / 1000000) * 1000000 = ((Tus : ℤ) : ℚ) := by
    field_simp
  have hfreq : roundHalfEven (((Tus : ℚ) / 1000000) * 1000000) = Tus := by
    rw [harg2, roundHalfEven_intCast]
  have hne : roundHalfEven (((Tus : ℚ) / 1000000) * 1000000) ≠ 0 := by
    rw [hfreq]
    omega
  constructor
  · unfold Cometa.generate_timestamps
    simp only []
    rw [if_neg hne, except_map_ok]
    simp
  · unfold Cometa.generate_timestamps
    simp only []
    rw [if_neg hne, except_map_ok]
    simp only [Except.ok.injEq]
    rw [getLast?_range_map _ _ hn]
    have hcast : ((n : ℚ) - 1) = (((n - 1 : ℕ) : ℤ) : ℚ) := by
      have h := Nat.cast_sub (R := ℚ) hn
      push_cast at h ⊢
      linarith
    have harg : ((n : ℚ) - 1) * ((Tus : ℚ) / 1000000) * 1000000
        = ((((n - 1 : ℕ) : ℤ) * Tus : ℤ) : ℚ) := by
      rw [hcast]
      push_cast
      field_simp
    rw [harg, roundHalfEven_intCast, hfreq]
    congr 1
    ring

theorem cometa_generate_timestamps_integer_period_witness :
    (Cometa.generate_timestamps 100 (((2 : ℤ) : ℚ) / 1000000) 5).map
        List.length = .ok 5
    ∧ (Cometa.generate_timestamps 100 (((2 : ℤ) : ℚ) / 1000000) 5).map
        List.getLast? = .ok (some 100) := by
  exact cometa_generate_timestamps_integer_period 100 2 5 (by norm_num)
    (by norm_num)

theorem build_seizure_datavault_skips_failing_witness :
    build_seizure_datavault exParse ["p1", "p2"] none = [exEvent "p2"] := by
  have hfail : exParse "p1" >>= (fun s => extract_seizure_info s "p1" none)
      = .error "sheet missing" := rfl
  have hok : ∀ p, p ≠ "p1" →
      exParse p >>= (fun s => extract_seizure_info s p none)
        = .ok [exEvent p] := by
    intro p hp
    show exParse p >>= _ = _
    unfold exParse
    rw [if_neg hp]
    rfl
  have h := build_seizure_datavault_skips_failing exParse none ["p1", "p2"]
    "p1" "sheet missing" (fun p => [exEvent p]) hfail hok
  rw [h]
  rfl

end EpilepsyTools

namespace EpilepsyTools

theorem except_bind_ok {ε α β : Type} (a : α) (f : α → Except ε β) :
    (Except.ok a >>= f) = f a := rfl

theorem except_bind_error {ε α β : Type} (e : ε) (f : α → Except ε β) :
    ((Except.error e : Except ε α) >>= f) = Except.error e := rfl

/-- The successful branch of the motion/EMG synthesizer, under the
hypothesis that its zero-tick error path does not fire. -/
theorem cometa_generate_timestamps_ok (m : ℤ) (T : ℚ) (n : ℕ)
    (htick : roundHalfEven (T * 1000000) ≠ 0) :
    Cometa.generate_timestamps m T n
      = .ok ((List.range n).map (fun k : ℕ =>
          m - roundHalfEven (((n : ℚ) - 1) * T * 1000000)
            + (k : ℤ) * roundHalfEven (T * 1000000))) := by
  unfold Cometa.generate_timestamps
  simp only []
  rw [if_neg htick]

theorem cometa_generate_timestamps_ok_length (m : ℤ) (T : ℚ) (n : ℕ)
    (ts : List ℤ) (h : Cometa.generate_timestamps m T n = .ok ts) :
    ts.length = n := by
  unfold Cometa.generate_timestamps at h
  simp only [] at h
  split at h
  · exact absurd h (by simp)
  · injection h with h
    subst h
    simp

theorem dfSetCol_append (df : List (String × List (Option ℚ))) (l : String)
    (c : List (Option ℚ)) (h : ∀ q ∈ df, q.1 ≠ l) :
    Hexoskin.dfSetCol df l c = df ++ [(l, c)] := by
  unfold Hexoskin.dfSetCol
  rw [if_neg]
  simp only [List.any_eq_true, not_exists, not_and]
  intro q hq
  simpa using h q hq

theorem loadStep_ok (R : ℚ) (L : ℕ) (df dfr : List (String × List (Option ℚ)))
    (sh : List (Option ℚ) × Hexoskin.EdfSignalHeader)
    (h : Hexoskin.loadStep R L df sh = .ok dfr) :
    1 ≤ Hexoskin.strideOf R sh.2
    ∧ sh.1.length = (L + Hexoskin.strideOf R sh.2 - 1) / Hexoskin.strideOf R sh.2
    ∧ ∃ lab, Hexoskin.parse_label sh.2.label = .ok lab
        ∧ dfr = Hexoskin.dfSetCol df lab
            (Hexoskin.scatterChannel L (Hexoskin.strideOf R sh.2) sh.1) := by
  unfold Hexoskin.loadStep at h
  split at h
  · exact absurd h (by simp)
  · split at h
    case isTrue hstr => exact absurd h (by simp)
    case isFalse hstr =>
      dsimp only at h
      split at h
      · exact absurd h (by simp)
      case isFalse hlen =>
        refine ⟨?_, by omega, ?_⟩
        · have hpos : 0 < Hexoskin.truncDivRat R sh.2.sample_frequency := by
            omega
          unfold Hexoskin.strideOf
          omega
        · cases hp : Hexoskin.parse_label sh.2.label with
          | error e =>
            rw [hp, except_bind_error] at h
            exact absurd h (by simp)
          | ok lab =>
            rw [hp, except_bind_ok] at h
            exact ⟨lab, rfl, (Except.ok.inj h).symm⟩

theorem foldlM_loadStep_ok (R : ℚ) (L : ℕ) :
    ∀ (pairs : List (List (Option ℚ) × Hexoskin.EdfSignalHeader))
      (acc df : List (String × List (Option ℚ))),
    List.foldlM (Hexoskin.loadStep R L) acc pairs = .ok df →
    (pairs.map (fun sh => Hexoskin.parse_label sh.2.label)).Nodup →
    (∀ sh ∈ pairs, ∀ q ∈ acc, .ok q.1 ≠ Hexoskin.parse_label sh.2.label) →
    df = acc ++ pairs.map (fun sh =>
        (((Hexoskin.parse_label sh.2.label).toOption).getD "",
         Hexoskin.scatterChannel L (Hexoskin.strideOf R sh.2) sh.1))
    ∧ ∀ sh ∈ pairs,
        1 ≤ Hexoskin.strideOf R sh.2
        ∧ sh.1.length
            = (L + Hexoskin.strideOf R sh.2 - 1) / Hexoskin.strideOf R sh.2 := by
  intro pairs
  induction pairs with
  | nil =>
    intro acc df h _ _
    simp only [List.foldlM_nil] at h
    cases h
    simp
  | cons sh pairs ih =>
    intro acc df h hnd hfresh
    rw [List.foldlM_cons] at h
    cases hstep : Hexoskin.loadStep R L acc sh with
    | error e =>
      rw [hstep, except_bind_error] at h
      exact absurd h (by simp)
    | ok acc2 =>
      rw [hstep, except_bind_ok] at h
      obtain ⟨hstr, hlen, lab, hplab, rfl⟩ := loadStep_ok R L acc acc2 sh hstep
      have hfr : ∀ q ∈ acc, q.1 ≠ lab := by
        intro q hq he
        exact hfresh sh (List.mem_cons_self sh pairs) q hq (by rw [he, hplab])
      rw [dfSetCol_append acc lab _ hfr] at h
      rw [List.map_cons, List.nodup_cons] at hnd
      have hfresh2 : ∀ sh2 ∈ pairs, ∀ q ∈ acc ++ [(lab,
          Hexoskin.scatterChannel L (Hexoskin.strideOf R sh.2) sh.1)],
          .ok q.1 ≠ Hexoskin.parse_label sh2.2.label := by
        intro sh2 hsh2 q hq
        rcases List.mem_append.mp hq with hq1 | hq1
        · exact hfresh sh2 (List.mem_cons_of_mem sh hsh2) q hq1
        · rcases List.mem_singleton.mp hq1 with rfl
          intro he
          exact hnd.1 (by
            rw [← hplab] at he
            rw [he]
            exact List.mem_map_of_mem _ hsh2)
      obtain ⟨hdf, hconds⟩ := ih _ df h hnd.2 hfresh2
      constructor
      · rw [hdf, List.map_cons, List.append_assoc]
        simp [hplab, Except.toOption]
      · intro sh2 hsh2
        rcases List.mem_cons.mp hsh2 with rfl | hsh2
        · exact ⟨hstr, hlen⟩
        · exact hconds sh2 hsh2

theorem ceil_le_mul (k L : ℕ) (hk : 1 ≤ k) : L ≤ ((L + k - 1) / k) * k := by
  have h1 := Nat.div_add_mod (L + k - 1) k
  have h2 : (L + k - 1) % k < k := Nat.mod_lt _ (by omega)
  rw [Nat.mul_comm]
  omega

theorem range_filter_mod (k : ℕ) (hk : 1 ≤ k) (L : ℕ) :
    (List.range L).filter (fun j => j % k == 0)
      = (List.range ((L + k - 1) / k)).map (fun i => i * k) := by
  induction L with
  | zero => simp [Nat.div_eq_of_lt (show k - 1 < k by omega)]
  | succ L ih =>
    rw [List.range_succ, List.filter_append, ih]
    by_cases hL : L % k = 0
    · have hdvd := Nat.dvd_of_mod_eq_zero hL
      have hc1 : (L + 1 + k - 1) / k = L / k + 1 := by
        have he : L + 1 + k - 1 = L + k := by omega
        rw [he]
        exact Nat.add_div_right L (by omega)
      have hc0 : (L + k - 1) / k = L / k := by
        obtain ⟨q, rfl⟩ := hdvd
        have he : k * q + k - 1 = k * q + (k - 1) := by omega
        rw [he, Nat.mul_add_div (by omega), Nat.div_eq_of_lt (by omega),
          Nat.mul_div_cancel_left q (by omega)]
        omega
      rw [hc1, hc0, List.range_succ, List.map_append]
      congr 1
      simp [hL, Nat.div_mul_cancel hdvd]
    · have hc : (L + 1 + k - 1) / k = (L + k - 1) / k := by
        have hr0 : 0 < L % k := Nat.pos_of_ne_zero hL
        have hrk : L % k < k := Nat.mod_lt _ (by omega)
        have hLd := Nat.div_add_mod L k
        have e1 : L + k - 1 = k * (L / k) + (L % k + k - 1) := by omega
        have e2 : L + 1 + k - 1 = k * (L / k) + (L % k + k) := by omega
        rw [e1, e2, Nat.mul_add_div (by omega), Nat.mul_add_div (by omega)]
        congr 1
        have d1 : (L % k + k) / k = 1 := by
          rw [Nat.add_div_right _ (by omega), Nat.div_eq_of_lt hrk]
        have d2 : (L % k + k - 1) / k = 1 :=
          Nat.div_eq_of_lt_le (by omega) (by omega)
        rw [d1, d2]
      rw [hc]
      simp [hL]

theorem map_getD_range_eq_self {α : Type} (l : List α) (d : α) :
    (List.range l.length).map (fun i => l.getD i d) = l := by
  induction l with
  | nil => simp
  | cons a l ih =>
    rw [List.length_cons, List.range_succ_eq_map, List.map_cons, List.map_map]
    have he : ((fun i => (a :: l).getD i d) ∘ Nat.succ) = fun i => l.getD i d := by
      funext i
      simp
    rw [he, ih]
    rfl

theorem scatterChannel_filter (L k : ℕ) (sig : List (Option ℚ))
    (hk : 1 ≤ k) (hlen : sig.length = (L + k - 1) / k)
    (hnn : ∀ x ∈ sig, x ≠ (none : Option ℚ)) :
    (Hexoskin.scatterChannel L k sig).filter Option.isSome = sig := by
  unfold Hexoskin.scatterChannel
  rw [List.filter_map]
  have hcong : (List.range L).filter (Option.isSome ∘ fun j =>
        if j % k = 0 then sig.getD (j / k) none else none)
      = (List.range L).filter (fun j => j % k == 0) := by
    apply List.filter_congr
    intro j hj
    rw [List.mem_range] at hj
    by_cases hmod : j % k = 0
    · have hjk : j / k < sig.length := by
        rw [hlen, Nat.div_lt_iff_lt_mul (by omega)]
        exact Nat.lt_of_lt_of_le hj (ceil_le_mul k L hk)
      have hne2 : sig[j / k]?.getD none ≠ none := by
        rw [List.getElem?_eq_getElem hjk]
        exact hnn _ (List.getElem_mem hjk)
      simp [Function.comp, hmod, Option.isSome_iff_ne_none, hne2]
    · simp [Function.comp, hmod]
  rw [hcong, range_filter_mod k hk L, List.map_map]
  have he : ((fun j => if j % k = 0 then sig.getD (j / k) none else none)
        ∘ fun i => i * k) = fun i => sig.getD i none := by
    funext i
    simp only [Function.comp]
    rw [if_pos (Nat.mul_mod_left i k), Nat.mul_div_cancel i (by omega)]
  rw [he, ← hlen, map_getD_range_eq_self]

theorem hexoskin_load_data_ok_inv (signals : List (List (Option ℚ)))
    (signal_headers : List Hexoskin.EdfSignalHeader) (startdate_us : ℤ)
    (ts : List ℤ) (df : List (String × List (Option ℚ)))
    (hok : Hexoskin.load_data signals signal_headers startdate_us
      = .ok (ts, df)) :
    signals.length = signal_headers.length
    ∧ ∃ r rs l ls,
        signal_headers.map (fun h => h.sample_frequency) = r :: rs
        ∧ signals.map List.length = l :: ls
        ∧ List.foldlM (Hexoskin.loadStep (rs.foldl max r) (ls.foldl max l)) []
            (signals.zip signal_headers) = .ok df := by
  unfold Hexoskin.load_data at hok
  cases hr : signal_headers.map (fun h => h.sample_frequency) with
  | nil =>
    rw [hr] at hok
    exact absurd hok (by simp [except_bind_error])
  | cons r rs =>
    rw [hr] at hok
    dsimp only at hok
    rw [except_bind_ok] at hok
    cases hl : signals.map List.length with
    | nil =>
      rw [hl] at hok
      exact absurd hok (by simp [except_bind_error])
    | cons l ls =>
      rw [hl] at hok
      dsimp only at hok
      rw [except_bind_ok] at hok
      cases hts : Hexoskin.generate_timestamps startdate_us (rs.foldl max r)
          (ls.foldl max l) with
      | error e =>
        rw [hts, except_bind_error] at hok
        exact absurd hok (by simp)
      | ok tsv =>
        rw [hts, except_bind_ok] at hok
        split at hok
        · exact absurd hok (by simp [except_bind_error])
        case isFalse hne =>
          cases hfold : List.foldlM
              (Hexoskin.loadStep (rs.foldl max r) (ls.foldl max l)) []
              (signals.zip signal_headers) with
          | error e =>
            rw [hfold, except_bind_error] at hok
            exact absurd hok (by simp)
          | ok dfv =>
            rw [hfold, except_bind_ok] at hok
            have hinj := Except.ok.inj hok
            have hdf : dfv = df := congrArg Prod.snd hinj
            exact ⟨by omega, r, rs, l, ls, rfl, rfl, by rw [hfold, hdf]⟩

/-- Counterexample to claim C8: a successfully decoded `.edf` input may
contain a NaN raw sample, and the missing sentinel of the table is NaN too.
On the one-channel one-sample input whose sample is NaN, the dict-mode
series is empty after `dropna`, so it is not of the channel's original raw
sample count 1 (and the raw NaN sample never appears in any compacted
series). -/
theorem hexoskin_dict_mode_nan_counterexample :
    Hexoskin.load_data_dict [[none]] [⟨"a:x", 1⟩] 0 = .ok [("x", [])]
    ∧ ([] : List (Option ℚ)).length ≠ [(none : Option ℚ)].length := by
  have hgen := hexoskin_generate_timestamps_ok 0 1 1 (by norm_num)
    (by unfold roundHalfEven; norm_num)
  have hdd : Hexoskin.load_data [[none]] [⟨"a:x", 1⟩] 0
      = Hexoskin.generate_timestamps 0 1 1 >>= fun timestamps =>
          .ok (timestamps, [("x", [none])]) := rfl
  rw [hgen, except_bind_ok] at hdd
  refine ⟨?_, by decide⟩
  unfold Hexoskin.load_data_dict
  rw [hdd]
  rfl

/-- Claim C8, amended: for every `.edf` input that loads successfully, whose
raw samples are free of the NaN sentinel, and whose parsed channel labels
are pairwise distinct (duplicate labels shadow each other in the frame):
the dict mode is exactly the dataframe's columns with the sentinel
positions dropped (so the non-sentinel positions of each column equal the
dict series in order), the frame has one column per channel, and each
channel's compacted series equals its raw sample list — in particular it
contains no sentinel and has the channel's original raw sample count. -/
theorem hexoskin_modes_agree (signals : List (List (Option ℚ)))
    (signal_headers : List Hexoskin.EdfSignalHeader) (startdate_us : ℤ)
    (ts : List ℤ) (df : List (String × List (Option ℚ)))
    (hok : Hexoskin.load_data signals signal_headers startdate_us
      = .ok (ts, df))
    (hnn : ∀ s ∈ signals, ∀ x ∈ s, x ≠ (none : Option ℚ))
    (hnd : (signal_headers.map
      (fun h => Hexoskin.parse_label h.label)).Nodup) :
    Hexoskin.load_data_dict signals signal_headers startdate_us
        = .ok (df.map (fun p => (p.1, p.2.filter Option.isSome)))
    ∧ df.length = signals.length
    ∧ ∀ i, i < signals.length →
        ((df.getD i ("", [])).2.filter Option.isSome) = signals.getD i [] := by
  obtain ⟨hleneq, r, rs, l, ls, hr, hl, hfold⟩ :=
    hexoskin_load_data_ok_inv signals signal_headers startdate_us ts df hok
  have hndz : ((signals.zip signal_headers).map
      (fun sh => Hexoskin.parse_label sh.2.label)).Nodup := by
    have he : (signals.zip signal_headers).map
          (fun sh => Hexoskin.parse_label sh.2.label)
        = ((signals.zip signal_headers).map Prod.snd).map
            (fun h => Hexoskin.parse_label h.label) := by
      rw [List.map_map]
      rfl
    rw [he, List.map_snd_zip signals signal_headers (by omega)]
    exact hnd
  have hfreshnil : ∀ sh ∈ signals.zip signal_headers,
      ∀ q ∈ ([] : List (String × List (Option ℚ))),
      Except.ok q.1 ≠ Hexoskin.parse_label sh.2.label := by simp
  obtain ⟨hdf, hconds⟩ :=
    foldlM_loadStep_ok _ _ _ _ _ hfold hndz hfreshnil
  rw [List.nil_append] at hdf
  subst hdf
  have hzlen : (signals.zip signal_headers).length = signals.length := by
    rw [List.length_zip]
    omega
  refine ⟨?_, ?_, ?_⟩
  · unfold Hexoskin.load_data_dict
    rw [hok]
    rfl
  · rw [List.length_map, hzlen]
  · intro i hi
    have hizip : i < (signals.zip signal_headers).length := by omega
    have hidf : i < (List.map (fun sh =>
        (((Hexoskin.parse_label sh.2.label).toOption).getD "",
         Hexoskin.scatterChannel (ls.foldl max l)
           (Hexoskin.strideOf (rs.foldl max r) sh.2) sh.1))
        (signals.zip signal_headers)).length := by
      rw [List.length_map]
      omega
    rw [List.getD_eq_getElem _ _ hidf, List.getD_eq_getElem _ _ hi]
    obtain ⟨hstr, hlen2⟩ := hconds _ (List.getElem_mem hizip)
    rw [List.getElem_map]
    have hsig : ∀ x ∈ (signals.zip signal_headers)[i].1, x ≠ (none : Option ℚ) := by
      intro x hx
      have h1 : (signals.zip signal_headers)[i].1 = signals[i] := by
        rw [List.getElem_zip]
      rw [h1] at hx
      exact hnn signals[i] (List.getElem_mem hi) x hx
    have hres := scatterChannel_filter (ls.foldl max l)
      (Hexoskin.strideOf (rs.foldl max r) ((signals.zip signal_headers)[i].2))
      ((signals.zip signal_headers)[i].1) hstr hlen2 hsig
    rw [hres]
    rw [List.getElem_zip]

theorem hexoskin_modes_agree_witness :
    Hexoskin.load_data_dict [[some 1, some 2]] [⟨"a:x", 2⟩] 0
      = .ok [("x", [some 1, some 2])] := by
  have hgen := hexoskin_generate_timestamps_ok 0 2 2 (by norm_num)
    (by unfold roundHalfEven; norm_num)
  have hok : Hexoskin.load_data [[some 1, some 2]] [⟨"a:x", 2⟩] 0
      = Hexoskin.generate_timestamps 0 2 2 >>= fun timestamps =>
          .ok (timestamps, [("x", [some 1, some 2])]) := rfl
  rw [hgen, except_bind_ok] at hok
  have h := hexoskin_modes_agree [[some 1, some 2]] [⟨"a:x", 2⟩] 0
    _ [("x", [some 1, some 2])] hok (by decide) (by simp)
  rw [h.1]
  rfl

/-- Counterexample to claim C2: the motion/EMG loader is claimed to return
one row per original (pre-trim) sample index.  On a single-channel input of
three concatenated samples `[1, 1, 0]`, the per-channel trailing-zero trim
shortens the only column to length 2, the re-aligned table has 2 rows, and
the timestamp index is built for 2 points — not the 3 pre-trim samples. -/
theorem cometa_load_data_row_count_counterexample :
    (Cometa.load_data ⟨[[1], [1], [0]], ["ch"], 1, 0⟩).map
      (fun t => t.index.length) = .ok 2
    ∧ ([[1], [1], [0]] : List (List ℚ)).length = 3 := by
  have hne : roundHalfEven
      ((((2 : ℕ) : ℚ) - 1) * (1 / (1 : ℚ)) / (((2 : ℕ) : ℚ) - 1) * 1000000)
        ≠ 0 := by
    unfold roundHalfEven
    norm_num
  have hgen := cometa_generate_timestamps_ok 0
    ((((2 : ℕ) : ℚ) - 1) * (1 / (1 : ℚ)) / (((2 : ℕ) : ℚ) - 1)) 2 hne
  have hdd : Cometa.load_data ⟨[[1], [1], [0]], ["ch"], 1, 0⟩
      = (match Cometa.generate_timestamps 0
            ((((2 : ℕ) : ℚ) - 1) * (1 / (1 : ℚ)) / (((2 : ℕ) : ℚ) - 1)) 2 with
         | .error e => (.error e : Except String Cometa.Table)
         | .ok timestamps => .ok ⟨timestamps, [("ch", [some 1, some 1])]⟩)
      := rfl
  refine ⟨?_, rfl⟩
  rw [hdd, hgen]
  rfl

/-- Claim C2, amended: for every successfully loaded `.c3d` input the row
count of the returned table (its index length, and every column's length)
equals the maximum per-channel post-trim sample count, which is at most the
pre-trim concatenated count and which, for a nonempty table, equals it
exactly when some channel's last sample is nonzero. -/
theorem cometa_load_data_row_count (inp : Cometa.C3dInput) (t : Cometa.Table)
    (h : Cometa.load_data inp = .ok t) :
    t.index.length = Cometa.maxTrimLen inp
    ∧ ∀ c ∈ t.cols, c.2.length = Cometa.maxTrimLen inp := by
  simp only [Cometa.load_data] at h
  split at h
  · exact absurd h (by simp)
  · split at h
    · exact absurd h (by simp)
    · split at h
      · exact absurd h (by simp)
      · rename_i tsv heq
        injection h with h
        subst h
        constructor
        · show tsv.length = Cometa.maxTrimLen inp
          rw [cometa_generate_timestamps_ok_length _ _ _ _ heq]
          rfl
        · rintro ⟨cl, ccol⟩ hc
          have h2 := (List.of_mem_zip hc).2
          obtain ⟨tcol, _, rfl⟩ := List.mem_map.mp h2
          simp [Cometa.maxTrimLen]

theorem cometa_load_data_row_count_witness :
    Cometa.c2WitnessTable.index.length
      = Cometa.maxTrimLen ⟨[[1], [2]], ["ch"], 1, 0⟩ := by
  have hne : roundHalfEven
      ((((2 : ℕ) : ℚ) - 1) * (1 / (1 : ℚ)) / (((2 : ℕ) : ℚ) - 1) * 1000000)
        ≠ 0 := by
    unfold roundHalfEven
    norm_num
  have hgen := cometa_generate_timestamps_ok 0
    ((((2 : ℕ) : ℚ) - 1) * (1 / (1 : ℚ)) / (((2 : ℕ) : ℚ) - 1)) 2 hne
  have hdd : Cometa.load_data ⟨[[1], [2]], ["ch"], 1, 0⟩
      = (match Cometa.generate_timestamps 0
            ((((2 : ℕ) : ℚ) - 1) * (1 / (1 : ℚ)) / (((2 : ℕ) : ℚ) - 1)) 2 with
         | .error e => (.error e : Except String Cometa.Table)
         | .ok timestamps => .ok ⟨timestamps, [("ch", [some 1, some 2])]⟩)
      := rfl
  have h : Cometa.load_data ⟨[[1], [2]], ["ch"], 1, 0⟩
      = .ok Cometa.c2WitnessTable := by
    unfold Cometa.c2WitnessTable
    rw [hdd, hgen]
  exact (cometa_load_data_row_count _ _ h).1

/-- Claim C9: the `data.fillna(0)` on source line 294 is dead code — its
result is discarded, so `load_data` returns exactly the table standing
before that statement, and the NaN sentinels introduced at the trailing
positions of trimmed channels survive into the returned table.  The second
conjunct exhibits them on a concrete input (channel "a" is trimmed from
`[1, 0]` to `[1]` and re-aligned with a trailing sentinel); the third shows
the returned columns differ from their `fillna(0)` image. -/
theorem cometa_fillna_noop :
    (∀ inp : Cometa.C3dInput,
      Cometa.load_data inp = Cometa.load_table_pre_fillna inp)
    ∧ (Cometa.load_data ⟨[[1, 1], [0, 1]], ["a", "b"], 1, 0⟩).map
        (fun t => t.cols)
        = .ok [("a", [some 1, none]), ("b", [some 1, some 1])]
    ∧ (Cometa.load_data ⟨[[1, 1], [0, 1]], ["a", "b"], 1, 0⟩).map
        (fun t => decide (t.cols = (Cometa.fillnaTable 0 t).cols))
        = .ok false := by
  have hne : roundHalfEven
      ((((2 : ℕ) : ℚ) - 1) * (1 / (1 : ℚ)) / (((2 : ℕ) : ℚ) - 1) * 1000000)
        ≠ 0 := by
    unfold roundHalfEven
    norm_num
  have hgen := cometa_generate_timestamps_ok 0
    ((((2 : ℕ) : ℚ) - 1) * (1 / (1 : ℚ)) / (((2 : ℕ) : ℚ) - 1)) 2 hne
  have hdd : Cometa.load_data ⟨[[1, 1], [0, 1]], ["a", "b"], 1, 0⟩
      = (match Cometa.generate_timestamps 0
            ((((2 : ℕ) : ℚ) - 1) * (1 / (1 : ℚ)) / (((2 : ℕ) : ℚ) - 1)) 2 with
         | .error e => (.error e : Except String Cometa.Table)
         | .ok timestamps =>
             .ok ⟨timestamps,
               [("a", [some 1, none]), ("b", [some 1, some 1])]⟩) := rfl
  refine ⟨fun _ => rfl, ?_, ?_⟩
  · rw [hdd, hgen]
    rfl
  · rw [hdd, hgen]
    rfl

end EpilepsyTools
